import Mathlib

/-!
Verification of the `spac_kit.autodocs` Sphinx extension
(`src/spac_kit/autodocs/__init__.py`).

The development shallowly embeds the pure content of the module:

* the field/packet data model that the directive reflects over,
* the formatting helpers (`_calculate_bit_offset`, `_format_data_type`, ...),
* the docutils node tree built by `SpacDocsDirective` (`_gen_nodes`, `run`),
* stub/toctree generation (`generate_packet_stubs`) and the static asset
  copy (`copy_static_css`), with the filesystem passed explicitly as a map
  from paths to file contents.

Python strings are Lean `String`s; Python `None` is `Option.none`; machine
integers are `Int` (Python ints are unbounded, so no wraparound modelling is
needed); fallible code returns `Except`.
-/

/-- A Python scalar as it may appear in a field's `_bit_offset` slot:
an int, or a string (the code compares the value against `""`). -/
inductive PVal where
  | pint (n : Int)
  | pstr (s : String)
deriving DecidableEq

/-- Python `str()` of such a value. -/
def pvalStr : PVal → String
  | .pint n => toString n
  | .pstr s => s

/-- A field's `_array_shape` as ccsdspy stores it: the string `"expand"`
or a tuple of int dimensions (or it is absent/None, i.e. `Option.none`). -/
inductive ShapeV where
  | expand
  | tup (dims : List Int)
deriving DecidableEq

/-- Python `str()` of the stored array-shape object: `str("expand")` is
`"expand"`, `str((4,))` is `"(4,)"`, `str((4, 4))` is `"(4, 4)"`. -/
def shapeStr : ShapeV → String
  | .expand => "expand"
  | .tup [] => "()"
  | .tup [x] => "(" ++ toString x ++ ",)"
  | .tup xs => "(" ++ String.intercalate ", " (xs.map toString) ++ ")"

/-- The underscore-prefixed field attributes the directive reads. -/
inductive Attr where
  | name
  | data_type
  | bit_length
  | bit_offset
  | byte_order
  | field_type
  | array_shape
  | array_order
deriving DecidableEq

/-- A ccsdspy packet field, restricted to the attributes the extension
accesses via `getattr`.  An absent attribute and an attribute set to
`None` behave identically at every access site in the source (each
`getattr` supplies a default that collapses with `None`), so both are
modelled as `Option.none`. -/
structure PacketField where
  name : String
  data_type : Option String
  bit_length : Option Int
  bit_offset : Option PVal
  byte_order : Option String
  field_type : Option String
  array_shape : Option ShapeV
  array_order : Option String
  description : Option String
deriving DecidableEq

/-- A `_BasePacket` instance: `packet.name`, `type(packet).__name__` and the
ordered `packet._fields` list are the only parts the extension reads. -/
structure Packet where
  name : String
  typeName : String
  fields : List PacketField
deriving DecidableEq

namespace SpacDocsDirective

/-- One entry of `ALL_COLUMNS` (the `_Column` namedtuple). -/
structure Column where
  colname : String
  attr : Attr
  show_on_summary : Bool
deriving DecidableEq

/-- `SpacDocsDirective.ALL_COLUMNS`. -/
def ALL_COLUMNS : List Column :=
  [ ⟨"Name", .name, true⟩,
    ⟨"DataType", .data_type, true⟩,
    ⟨"BitLength", .bit_length, true⟩,
    ⟨"BitOffset", .bit_offset, true⟩,
    ⟨"ByteOrder", .byte_order, true⟩,
    ⟨"FieldType", .field_type, false⟩,
    ⟨"ArrayShape", .array_shape, false⟩,
    ⟨"ArrayOrder", .array_order, false⟩ ]

/-- `_calculate_bit_offset`: use the field's own `_bit_offset` unless it is
`None` or `""`, in which case use the running offset. -/
def _calculate_bit_offset (field : PacketField) (running_offset : Int) : PVal :=
  match field.bit_offset with
  | none => .pint running_offset
  | some v => if v = .pstr "" then .pint running_offset else v

/-- `_format_bit_offset`: `str()` of the calculated offset. -/
def _format_bit_offset (field : PacketField) (running_offset : Int) : String :=
  pvalStr (_calculate_bit_offset field running_offset)

/-- `_format_data_type`: append array notation when an array shape is
present; `str(None)` in Python is the string `"None"`. -/
def _format_data_type (field : PacketField) : String :=
  let data_type := match field.data_type with
    | none => "None"
    | some s => s
  match field.array_shape with
  | some .expand => data_type ++ "[]"
  | some (.tup dims) =>
      data_type ++ "[" ++ String.intercalate "," (dims.map toString) ++ "]"
  | none => data_type

/-- `_format_field_value`: `getattr(field, attr, "")`, `None` displayed as
the empty string, everything else via `str()`. -/
def _format_field_value (field : PacketField) : Attr → String
  | .name => field.name
  | .data_type => match field.data_type with | none => "" | some s => s
  | .bit_length => match field.bit_length with | none => "" | some n => toString n
  | .bit_offset => match field.bit_offset with | none => "" | some v => pvalStr v
  | .byte_order => match field.byte_order with | none => "" | some s => s
  | .field_type => match field.field_type with | none => "" | some s => s
  | .array_shape => match field.array_shape with | none => "" | some sh => shapeStr sh
  | .array_order => match field.array_order with | none => "" | some s => s

/-- `_get_formatted_value`: route to the appropriate formatter. -/
def _get_formatted_value (field : PacketField) (attr : Attr) (running_offset : Int) : String :=
  if attr = .data_type then _format_data_type field
  else if attr = .bit_offset then _format_bit_offset field running_offset
  else _format_field_value field attr

end SpacDocsDirective

/-- The docutils/sphinx document nodes the directive instantiates.  Only the
constructors and payloads the source actually sets are modelled (`desc_node`
also carries the constant attributes `domain="py"`, `objtype="data"`,
`noindex=False`, which no consumer in this module reads).  `sect` is
`nodes.section` (renamed because `section` is a Lean keyword). -/
inductive Node where
  | text (s : String)
  | raw (s : String)
  | reference (refuri : String) (content : String)
  | paragraph (children : List Node)
  | entry (children : List Node)
  | row (children : List Node)
  | colspec (colwidth : Nat)
  | thead (children : List Node)
  | tbody (children : List Node)
  | tgroup (cols : Nat) (children : List Node)
  | table (children : List Node)
  | title (s : String)
  | sect (ids : List String) (children : List Node)
  | descName (s : String)
  | inlineNode (s : String)
  | descSignature (children : List Node)
  | descContent (children : List Node)
  | desc (children : List Node)

/-- `str(description).replace('"', "&quot;").replace("'", "&#39;")`:
both patterns are single characters (codepoints 34 and 39), so the two
replacements together act as a character-wise substitution. -/
def escapeDesc (s : String) : String :=
  String.join (s.data.map fun c =>
    if c.toNat = 34 then "&quot;"
    else if c.toNat = 39 then "&#39;"
    else String.singleton c)

/-- The `svg_icon` HTML fragment embedding the escaped description. -/
def svgIcon (description : String) : String :=
  "<span class=\"field-name-tooltip\" style=\"margin-left:0.4em; vertical-align:middle; display:inline-block; cursor:pointer;\"><img src=\"/_static/circle-info.svg\" alt=\"info\" style=\"width:1em;height:1em;vertical-align:middle;display:inline-block;\"><span class=\"tooltiptext\">"
    ++ escapeDesc description ++ "</span></span>"

/-- A module attribute as seen through `isinstance(attr, _BasePacket)`:
either a packet instance or anything else. -/
inductive PyObj where
  | packet (p : Packet)
  | other
deriving DecidableEq

/-- An imported module: its attribute names (as `dir()` enumerates them)
with their values. -/
structure PyModule where
  attrs : List (String × PyObj)
deriving DecidableEq

/-- The import environment: which dotted module paths import successfully,
and to what module.  `importlib.import_module` on an absent path raises. -/
def Env : Type := List (String × PyModule)

/-- Successful import lookup. -/
def lookupEnv (env : Env) (m : String) : Option PyModule :=
  (env.find? fun e => e.1 == m).map Prod.snd

/-- `getattr(module, var_name, None)`. -/
def lookupAttr (module : PyModule) (a : String) : Option PyObj :=
  (module.attrs.find? fun e => e.1 == a).map Prod.snd

/-- `isinstance(packet, _BasePacket)` on the result of the attribute
lookup (with `None` for a missing attribute). -/
def isPacketOpt : Option PyObj → Bool
  | some (.packet _) => true
  | _ => false

/-- Exceptions the directive's loading path can raise: `ValueError` from
unpacking `rsplit(".", 1)` of a dot-free name, and
`ModuleNotFoundError`/`ImportError` from `importlib.import_module`. -/
inductive PyError where
  | valueError
  | moduleNotFound (name : String)
deriving DecidableEq

/-- Worker for `rsplit(".", 1)`: walks the reversed character list looking
for the last dot; `acc` holds the characters after that dot in original
order. -/
def rsplitGo : List Char → List Char → Option (List Char × List Char)
  | [], _ => none
  | c :: cs, acc =>
      if c = Char.ofNat 46 then some (cs.reverse, acc) else rsplitGo cs (c :: acc)

/-- Python `s.rsplit(".", 1)` followed by unpacking into two names: `none`
when the string contains no dot (in which case the unpacking raises
`ValueError`). -/
def rsplitDot1 (s : String) : Option (String × String) :=
  match rsplitGo s.data.reverse [] with
  | none => none
  | some pr => some (String.mk pr.1, String.mk pr.2)

namespace SpacDocsDirective

/-- `_create_name_entry_with_tooltip`: a paragraph holding a reference to
the field's detail anchor, plus the tooltip HTML when a (truthy)
description exists. -/
def _create_name_entry_with_tooltip (field_name : String) (description : Option String) : Node :=
  Node.paragraph
    ([Node.reference ("#field-" ++ field_name) field_name] ++
      match description with
      | some d => if d = "" then [] else [Node.raw (svgIcon d)]
      | none => [])

/-- `_create_summary_table_row`: one entry per summary-shown column. -/
def _create_summary_table_row (field : PacketField) (running_offset : Int) : Node :=
  Node.row ((ALL_COLUMNS.filter fun c => c.show_on_summary).map fun column =>
    if column.attr = Attr.name then
      Node.entry [_create_name_entry_with_tooltip field.name field.description]
    else
      Node.entry [Node.paragraph [Node.text (_get_formatted_value field column.attr running_offset)]])

/-- `_create_detail_section_row`. -/
def _create_detail_section_row (colname value : String) : Node :=
  Node.row
    [Node.entry [Node.paragraph [Node.text colname]],
     Node.entry [Node.paragraph [Node.text value]]]

/-- `_create_field_detail_section`: anchored section titled by the field
name, optional description paragraph, and a two-column attribute table
skipping Name and FieldType, and skipping ArrayShape/ArrayOrder for
non-array fields. -/
def _create_field_detail_section (field : PacketField) (running_offset : Int) : Node :=
  let is_array := field.array_shape.isSome
  let rows := (ALL_COLUMNS.filter fun col =>
      !(col.attr == Attr.name || col.attr == Attr.field_type) &&
      (is_array || !(col.attr == Attr.array_shape || col.attr == Attr.array_order))).map
    fun col => _create_detail_section_row col.colname (_get_formatted_value field col.attr running_offset)
  Node.sect ["field-" ++ field.name]
    ([Node.title field.name] ++
     (match field.description with
      | some d => if d = "" then [] else [Node.paragraph [Node.text d]]
      | none => []) ++
     [Node.table [Node.tgroup 2
        [Node.colspec 30, Node.colspec 70, Node.thead [Node.row []], Node.tbody rows]]])

/-- The `summary_columns` list computed in `_create_summary_table_structure`. -/
def summary_columns : List Column := ALL_COLUMNS.filter fun c => c.show_on_summary

/-- `_create_summary_table_structure`: the summary table with its header
row; the Python version returns the empty `tbody` to be populated by the
caller, modelled here by taking the body rows as a parameter. -/
def _create_summary_table_structure (rows : List Node) : Node :=
  Node.table [Node.tgroup summary_columns.length
    ((summary_columns.map fun _ => Node.colspec 15) ++
     [Node.thead [Node.row (summary_columns.map fun column =>
        Node.entry [Node.paragraph [Node.text column.colname]])],
      Node.tbody rows])]

/-- The field loop of `_create_summary_and_detail_content`: one summary row
and one detail section per field, threading the running offset, which grows
by `int(bitlen)` with `None` (or absent) bit lengths replaced by 0. -/
def buildRowsSections : List PacketField → Int → List Node × List Node
  | [], _ => ([], [])
  | f :: fs, running_offset =>
      let summary_row := _create_summary_table_row f running_offset
      let detail_section := _create_field_detail_section f running_offset
      let rest := buildRowsSections fs (running_offset + f.bit_length.getD 0)
      (summary_row :: rest.1, detail_section :: rest.2)

/-- `_create_summary_and_detail_content`: summary table and detail sections
built in a single pass starting from running offset 0. -/
def _create_summary_and_detail_content (packet : Packet) : Node × List Node :=
  let rs := buildRowsSections packet.fields 0
  (_create_summary_table_structure rs.1, rs.2)

/-- `_gen_nodes`: the `desc` node with a signature (packet name and
implementation type) and a content node holding, when the field list is
nonempty, the summary table followed by the detail sections. -/
def _gen_nodes (packet : Packet) : List Node :=
  let signature_node := Node.descSignature
    [Node.descName packet.name, Node.inlineNode (" (Type: " ++ packet.typeName ++ ")")]
  let content_node := Node.descContent
    (if packet.fields.isEmpty then []
     else
       let sd := _create_summary_and_detail_content packet
       sd.1 :: sd.2)
  [Node.desc [signature_node, content_node]]

/-- `_load_packet`: split the dotted address at its last dot (raising
`ValueError` when there is none), import the module (raising when
the import fails — the source does not guard this call), then return the
attribute when it is a `_BasePacket` instance and `None` otherwise. -/
def _load_packet (env : Env) (packet_obj_name : String) : Except PyError (Option Packet) :=
  match rsplitDot1 packet_obj_name with
  | none => .error .valueError
  | some mv =>
      match lookupEnv env mv.1 with
      | none => .error (.moduleNotFound mv.1)
      | some module =>
          match lookupAttr module mv.2 with
          | some (.packet p) => .ok (some p)
          | _ => .ok none

/-- `run`: empty node list when the packet resolves to `None`, the
generated nodes otherwise; exceptions from `_load_packet` propagate. -/
def run (env : Env) (packet_obj_name : String) : Except PyError (List Node) :=
  match _load_packet env packet_obj_name with
  | .error e => .error e
  | .ok none => .ok []
  | .ok (some packet) => .ok (_gen_nodes packet)

end SpacDocsDirective

/-- Text of a simple table cell: an entry holding one plain paragraph. -/
def cellText : Node → Option String
  | .entry [.paragraph [.text s]] => some s
  | _ => none

/-- The cells of a table row, as optional plain texts. -/
def rowCellTexts : Node → List (Option String)
  | .row entries => entries.map cellText
  | _ => []

/-- The BitOffset cell of a summary row (column index 3 of the shown
columns: Name, DataType, BitLength, BitOffset, ByteOrder). -/
def rowBitOffsetCell (r : Node) : Option String := (rowCellTexts r).getD 3 none

/-- The first cell of a row (the attribute-name column of a detail row). -/
def rowFirstCellText (r : Node) : Option String := (rowCellTexts r).getD 0 none

/-- The text of the reference in a summary row's Name cell. -/
def rowNameRefText : Node → Option String
  | .row (.entry (.paragraph (.reference _ t :: _) :: _) :: _) => some t
  | _ => none

/-- Body rows of a `tgroup`. -/
def tgroupBodyRows : Node → List Node
  | .tgroup _ children =>
      (children.map fun c => match c with | .tbody rows => rows | _ => []).flatten
  | _ => []

/-- Body rows of a table node (empty for non-table nodes). -/
def tableBodyRows : Node → List Node
  | .table children => (children.map tgroupBodyRows).flatten
  | _ => []

/-- Header cell texts of a table node. -/
def tableHeaderTexts : Node → List String
  | .table children =>
      (children.map fun c => match c with
        | .tgroup _ gs =>
            (gs.map fun g => match g with
              | .thead hrows => (hrows.map fun hr => (rowCellTexts hr).map fun o => o.getD "").flatten
              | _ => []).flatten
        | _ => []).flatten
  | _ => []

/-- Children of the `desc_content` node of a rendered packet. -/
def descContentChildren : List Node → List Node
  | [.desc cs] => (cs.map fun c => match c with | .descContent xs => xs | _ => []).flatten
  | _ => []

/-- The summary-table body rows in rendered packet content (rows of tables
appearing directly in the content; detail-section tables are nested inside
sections and are not included). -/
def summaryRowsOf (ns : List Node) : List Node :=
  ((descContentChildren ns).map tableBodyRows).flatten

/-- Whether a node is a section. -/
def isSectionNode : Node → Bool
  | .sect _ _ => true
  | _ => false

/-- The detail sections appearing directly in rendered packet content. -/
def sectionsOf (ns : List Node) : List Node :=
  (descContentChildren ns).filter isSectionNode

/-- The title of a section node. -/
def sectionTitle : Node → Option String
  | .sect _ (.title t :: _) => some t
  | _ => none

/-- Body rows of the attribute table inside a detail section. -/
def sectionBodyRows : Node → List Node
  | .sect _ children => (children.map tableBodyRows).flatten
  | _ => []

/-- The attribute names listed in a detail section, in row order. -/
def detailRowNames (sec : Node) : List (Option String) :=
  (sectionBodyRows sec).map rowFirstCellText

/-- The BitOffset column of the summary table rendered for a packet. -/
def summaryBitOffsetCells (p : Packet) : List (Option String) :=
  (summaryRowsOf (SpacDocsDirective._gen_nodes p)).map rowBitOffsetCell

/-- What `setup(app)` registers with the Sphinx application: one directive,
one config value (name and rebuild condition), one CSS file, and two event
handlers.  The returned metadata dict (version, parallel-safety flags) is
not modelled. -/
structure SetupResult where
  directives : List String
  config_values : List (String × String)
  css_files : List String
  connected : List (String × String)
deriving DecidableEq

/-- `setup`. -/
def setup : SetupResult :=
  { directives := ["spacdocs"],
    config_values := [("spacdocs_packet_modules", "env")],
    css_files := ["spac-kit.css"],
    connected := [("builder-inited", "generate_packet_stubs"),
                  ("config-inited", "copy_static_css")] }

/-- `modpath.split(".")` on the character list: Python single-character
split, which never returns an empty list (splitting `""` gives `[""]`). -/
def splitOnDot : List Char → List (List Char)
  | [] => [[]]
  | c :: cs =>
      let r := splitOnDot cs
      if c = Char.ofNat 46 then [] :: r
      else
        match r with
        | [] => [[c]]
        | y :: ys => (c :: y) :: ys

/-- `modpath.split(".")`. -/
def splitDots (s : String) : List String := (splitOnDot s.data).map String.mk

/-- `modpath.replace(".", "_")`: a single-character pattern, hence a
character-wise substitution (codepoint 46 to 95). -/
def underscoreDots (s : String) : String :=
  String.mk (s.data.map fun c => if c = Char.ofNat 46 then Char.ofNat 95 else c)

/-- `modpath_parts[-1] if modpath_parts else ""` (the list is in fact never
empty, so this is the last segment). -/
def lastSegment (s : String) : String := (splitDots s).getLastD ""

/-- The stub file name chosen in `generate_packet_stubs`: the underscored
module path, with the attribute name appended unless it repeats the last
module path segment, plus the `.rst` extension. -/
def stubName (modpath attr_name : String) : String :=
  if attr_name = lastSegment modpath then underscoreDots modpath ++ ".rst"
  else underscoreDots modpath ++ "_" ++ attr_name ++ ".rst"

/-- `'='*n`. -/
def eqLine (n : Nat) : String := String.mk (List.replicate n (Char.ofNat 61))

/-- `'-'*n`. -/
def dashLine (n : Nat) : String := String.mk (List.replicate n (Char.ofNat 45))

/-- The generated stub page: underlined title plus one directive call. -/
def stubContent (attr_name full_var_path : String) : String :=
  attr_name ++ "\n" ++ eqLine attr_name.length ++ "\n\n.. spacdocs:: "
    ++ full_var_path ++ "\n\n"

/-- One entry of `stub_infos`. -/
structure StubInfo where
  module_path : String
  packet_name : String
  stub_name : String
deriving DecidableEq

/-- The discovery loop of `generate_packet_stubs`: for each configured
module path, import it (a failed import is logged and skipped), then
collect every attribute that is a `_BasePacket` instance, in enumeration
order. -/
def discover (env : Env) (mods : List String) : List StubInfo :=
  (mods.map fun modpath =>
    match lookupEnv env modpath with
    | none => []
    | some module =>
        module.attrs.filterMap fun e =>
          match e.2 with
          | .packet _ => some (⟨modpath, e.1, stubName modpath e.1⟩ : StubInfo)
          | .other => none).flatten

/-- The files `generate_packet_stubs` and `copy_static_css` touch, as
structured paths: stub files live under `srcdir/_autopackets/`, the toctree
is `srcdir/_packet_index.rst`, and assets land in quite another directory
(the configured static dir), so the three groups never alias. -/
inductive FPath where
  | stub (name : String)
  | toctree
  | static (name : String)
deriving DecidableEq

/-- The filesystem, as contents by path. -/
def FS : Type := FPath → Option String

/-- Writing one file. -/
def fsUpdate (fs : FS) (p : FPath) (c : String) : FS :=
  fun q => if q = p then some c else fs q

/-- The read-compare-write policy used for stubs, the toctree and assets:
write only when the path does not already hold exactly this content.
Returns the new filesystem and the list of paths written. -/
def writeIfDiff (fs : FS) (p : FPath) (c : String) : FS × List FPath :=
  if fs p = some c then (fs, []) else (fsUpdate fs p c, [p])

/-- Sequential read-compare-write of a list of files. -/
def writeAll : FS → List (FPath × String) → FS × List FPath
  | fs, [] => (fs, [])
  | fs, pc :: rest =>
      let w1 := writeIfDiff fs pc.1 pc.2
      let w2 := writeAll w1.1 rest
      (w2.1, w1.2 ++ w2.2)

/-- The stub files and contents `generate_packet_stubs` produces, in the
order the discovery loop writes them. -/
def stubPairs (env : Env) (mods : List String) : List (FPath × String) :=
  (discover env mods).map fun info =>
    (FPath.stub info.stub_name,
     stubContent info.packet_name (info.module_path ++ "." ++ info.packet_name))

/-- Insertion-ordered dict update, as `defaultdict` behaves under Python's
insertion-ordered dict iteration: a missing key is appended at the end with
`f` applied to the default, an existing key is updated in place. -/
def updateAssoc {α : Type} : List (String × α) → String → α → (α → α) → List (String × α)
  | [], key, dflt, f => [(key, f dflt)]
  | e :: rest, key, dflt, f =>
      if e.1 = key then (e.1, f e.2) :: rest
      else e :: updateAssoc rest key dflt f

/-- The parent/child module split used for grouping: for fewer than two
dot-separated parts the whole path is the parent and the child is `""`;
otherwise the parent is the dot-joined init and the child the last part. -/
def parentChild (modpath : String) : String × String :=
  let mod_parts := splitDots modpath
  if mod_parts.length < 2 then (modpath, "")
  else (String.intercalate "." mod_parts.dropLast, mod_parts.getLastD "")

/-- `parent_to_child`: stubs grouped by parent module then child module,
in insertion order, each leaf holding `(packet_name, stub_relpath)`. -/
def toctreeGroups (infos : List StubInfo) :
    List (String × List (String × List (String × String))) :=
  infos.foldl (fun acc info =>
    let pc := parentChild info.module_path
    updateAssoc acc pc.1 [] fun inner =>
      updateAssoc inner pc.2 [] fun pkts =>
        pkts ++ [(info.packet_name, "_autopackets/" ++ info.stub_name)]) []

/-- `child_header = child_mod if child_mod else "packets"`. -/
def childHeader (child_mod : String) : String :=
  if child_mod = "" then "packets" else child_mod

/-- The (parent heading, child heading) pair the index renders for a
packet's module path. -/
def indexHeadings (modpath : String) : String × String :=
  let pc := parentChild modpath
  (pc.1, childHeader pc.2)

/-- The full `_packet_index.rst` text. -/
def toctreeContent (infos : List StubInfo) : String :=
  (toctreeGroups infos).foldl (fun acc pg =>
    let acc1 := acc ++ pg.1 ++ "\n" ++ eqLine pg.1.length ++ "\n\n"
    let acc2 := pg.2.foldl (fun a cg =>
      let header := childHeader cg.1
      let a1 := a ++ header ++ "\n" ++ dashLine header.length
        ++ "\n\n.. toctree::\n   :maxdepth: 2\n\n"
      let a2 := cg.2.foldl (fun b pkt => b ++ "   " ++ pkt.2 ++ "\n") a1
      a2 ++ "\n") acc1
    acc2 ++ "\n") ""

/-- `generate_packet_stubs`: nothing at all when no modules are configured;
otherwise write each stub under the diff-and-skip policy, then the toctree
file under the same policy. -/
def generate_packet_stubs (env : Env) (mods : List String) (fs : FS) :
    FS × List FPath :=
  if mods.isEmpty then (fs, [])
  else
    let w1 := writeAll fs (stubPairs env mods)
    let w2 := writeIfDiff w1.1 FPath.toctree (toctreeContent (discover env mods))
    (w2.1, w1.2 ++ w2.2)

/-- The bundled resource files as (file name, bytes); `os.listdir` yields
each directory entry once. -/
def staticPairs (resources : List (String × String)) : List (FPath × String) :=
  resources.map fun r => (FPath.static r.1, r.2)

/-- The copy loop of `copy_static_css`: each bundled file is copied to the
static directory unless the destination already has byte-identical
content. -/
def copy_static_css (resources : List (String × String)) (fs : FS) :
    FS × List FPath :=
  writeAll fs (staticPairs resources)

/-- One build initialisation: stub and index generation plus asset
mirroring, with the list of files written. -/
def fullBuild (env : Env) (mods : List String)
    (resources : List (String × String)) (fs : FS) : FS × List FPath :=
  let g := generate_packet_stubs env mods fs
  let c := copy_static_css resources g.1
  (c.1, g.2 ++ c.2)

/-- A write list is coherent when no two entries give the same path
different contents. -/
def coherentPairs (l : List (FPath × String)) : Prop :=
  ∀ a ∈ l, ∀ b ∈ l, a.1 = b.1 → a.2 = b.2

instance (l : List (FPath × String)) : Decidable (coherentPairs l) := by
  unfold coherentPairs
  infer_instance

/-- C4: for every field the rendered data-type string is the bare data type
when there is no array shape, the data type followed by `[]` for the
open/"expand" shape, and the data type followed by the comma-joined
dimensions in brackets for a fixed tuple shape. -/
theorem data_type_formatting (f : PacketField) :
    (f.array_shape = none →
      SpacDocsDirective._format_data_type f = (f.data_type.getD "None"))
    ∧ (f.array_shape = some .expand →
      SpacDocsDirective._format_data_type f = (f.data_type.getD "None") ++ "[]")
    ∧ (∀ dims, f.array_shape = some (.tup dims) →
      SpacDocsDirective._format_data_type f =
        (f.data_type.getD "None") ++ "[" ++
          String.intercalate "," (dims.map toString) ++ "]") := by
  refine ⟨fun h => ?_, fun h => ?_, fun dims h => ?_⟩ <;>
    · unfold SpacDocsDirective._format_data_type
      rw [h]
      cases f.data_type <;> rfl

/-- C4 witness: `uint` with shape `(4,4)` renders as `uint[4,4]`, with shape
`"expand"` as `uint[]`, and with no shape as `uint`. -/
theorem data_type_formatting_witness :
    SpacDocsDirective._format_data_type
        ⟨"f", some "uint", some 8, none, none, none, some (.tup [4, 4]), none, none⟩
      = "uint[4,4]"
    ∧ SpacDocsDirective._format_data_type
        ⟨"f", some "uint", some 8, none, none, none, some .expand, none, none⟩
      = "uint[]"
    ∧ SpacDocsDirective._format_data_type
        ⟨"f", some "uint", some 8, none, none, none, none, none, none⟩
      = "uint" := by
  refine ⟨?_, ?_, ?_⟩
  · exact ((data_type_formatting _).2.2 [4, 4] rfl).trans (by decide)
  · exact ((data_type_formatting _).2.1 rfl).trans (by decide)
  · exact ((data_type_formatting _).1 rfl).trans (by decide)

/-- C9: an explicit bit offset equal to the empty string is treated the same
as an unset (`None`) bit offset: in both cases the running accumulated
offset is rendered instead of the stored value. -/
theorem empty_string_bit_offset_is_unset (f : PacketField) (ro : Int)
    (h : f.bit_offset = none ∨ f.bit_offset = some (.pstr "")) :
    SpacDocsDirective._calculate_bit_offset f ro = .pint ro
    ∧ SpacDocsDirective._format_bit_offset f ro = toString ro := by
  have hc : SpacDocsDirective._calculate_bit_offset f ro = .pint ro := by
    unfold SpacDocsDirective._calculate_bit_offset
    rcases h with h | h <;> rw [h]
    rfl
  exact ⟨hc, by unfold SpacDocsDirective._format_bit_offset; rw [hc]; rfl⟩

/-- C9 witness: both for a `None` offset and for an `""` offset, a field at
running offset 24 renders the offset `24`. -/
theorem empty_string_bit_offset_is_unset_witness :
    SpacDocsDirective._format_bit_offset
        ⟨"f", some "uint", some 8, none, none, none, none, none, none⟩ 24 = "24"
    ∧ SpacDocsDirective._format_bit_offset
        ⟨"f", some "uint", some 8, some (.pstr ""), none, none, none, none, none⟩ 24
      = "24" := by
  refine ⟨?_, ?_⟩
  · exact (empty_string_bit_offset_is_unset _ 24 (Or.inl rfl)).2.trans (by decide)
  · exact (empty_string_bit_offset_is_unset _ 24 (Or.inr rfl)).2.trans (by decide)

theorem rowBitOffsetCell_summary_row (f : PacketField) (ro : Int) :
    rowBitOffsetCell (SpacDocsDirective._create_summary_table_row f ro)
      = some (SpacDocsDirective._format_bit_offset f ro) := rfl

theorem rowNameRefText_summary_row (f : PacketField) (ro : Int) :
    rowNameRefText (SpacDocsDirective._create_summary_table_row f ro)
      = some f.name := rfl

theorem sectionTitle_detail_section (f : PacketField) (ro : Int) :
    sectionTitle (SpacDocsDirective._create_field_detail_section f ro)
      = some f.name := rfl

theorem tableBodyRows_detail_section (f : PacketField) (ro : Int) :
    tableBodyRows (SpacDocsDirective._create_field_detail_section f ro) = [] := rfl

theorem isSectionNode_detail_section (f : PacketField) (ro : Int) :
    isSectionNode (SpacDocsDirective._create_field_detail_section f ro) = true := rfl

theorem tableBodyRows_summary_structure (rows : List Node) :
    tableBodyRows (SpacDocsDirective._create_summary_table_structure rows) = rows := by
  simp [SpacDocsDirective._create_summary_table_structure,
    SpacDocsDirective.summary_columns, SpacDocsDirective.ALL_COLUMNS,
    tableBodyRows, tgroupBodyRows]

theorem tableHeaderTexts_summary_structure (rows : List Node) :
    tableHeaderTexts (SpacDocsDirective._create_summary_table_structure rows)
      = ["Name", "DataType", "BitLength", "BitOffset", "ByteOrder"] := by
  simp [SpacDocsDirective._create_summary_table_structure,
    SpacDocsDirective.summary_columns, SpacDocsDirective.ALL_COLUMNS,
    tableHeaderTexts, rowCellTexts, cellText]

theorem flatten_tableBodyRows_sections (fields : List PacketField) (ro : Int) :
    (((SpacDocsDirective.buildRowsSections fields ro).2).map tableBodyRows).flatten
      = [] := by
  induction fields generalizing ro with
  | nil => rfl
  | cons f fs ih =>
      simp [SpacDocsDirective.buildRowsSections, tableBodyRows_detail_section, ih]

theorem filter_sections_buildRows (fields : List PacketField) (ro : Int) :
    ((SpacDocsDirective.buildRowsSections fields ro).2).filter isSectionNode
      = (SpacDocsDirective.buildRowsSections fields ro).2 := by
  induction fields generalizing ro with
  | nil => rfl
  | cons f fs ih =>
      simp [SpacDocsDirective.buildRowsSections, List.filter_cons,
        isSectionNode_detail_section, ih]

theorem descContentChildren_gen (p : Packet) :
    descContentChildren (SpacDocsDirective._gen_nodes p)
      = (if p.fields.isEmpty then []
         else (SpacDocsDirective._create_summary_and_detail_content p).1 ::
              (SpacDocsDirective._create_summary_and_detail_content p).2) := by
  cases hf : p.fields with
  | nil => simp [SpacDocsDirective._gen_nodes, hf, descContentChildren]
  | cons f fs => simp [SpacDocsDirective._gen_nodes, hf, descContentChildren]

theorem summaryRowsOf_gen (p : Packet) :
    summaryRowsOf (SpacDocsDirective._gen_nodes p)
      = (SpacDocsDirective.buildRowsSections p.fields 0).1 := by
  rw [summaryRowsOf, descContentChildren_gen]
  cases hf : p.fields with
  | nil => simp [SpacDocsDirective.buildRowsSections]
  | cons f fs =>
      simp [SpacDocsDirective._create_summary_and_detail_content, hf,
        tableBodyRows_summary_structure, flatten_tableBodyRows_sections]

theorem isSectionNode_summary_structure (rows : List Node) :
    isSectionNode (SpacDocsDirective._create_summary_table_structure rows) = false := rfl

theorem sectionsOf_gen (p : Packet) :
    sectionsOf (SpacDocsDirective._gen_nodes p)
      = (SpacDocsDirective.buildRowsSections p.fields 0).2 := by
  rw [sectionsOf, descContentChildren_gen]
  cases hf : p.fields with
  | nil => simp [SpacDocsDirective.buildRowsSections]
  | cons f fs =>
      simp [SpacDocsDirective._create_summary_and_detail_content, hf,
        List.filter_cons, isSectionNode_summary_structure, filter_sections_buildRows]

theorem buildRows_map_nameRef (fields : List PacketField) (ro : Int) :
    ((SpacDocsDirective.buildRowsSections fields ro).1).map rowNameRefText
      = fields.map fun f => some f.name := by
  induction fields generalizing ro with
  | nil => rfl
  | cons f fs ih =>
      simp [SpacDocsDirective.buildRowsSections, rowNameRefText_summary_row, ih]

theorem buildRows_map_title (fields : List PacketField) (ro : Int) :
    ((SpacDocsDirective.buildRowsSections fields ro).2).map sectionTitle
      = fields.map fun f => some f.name := by
  induction fields generalizing ro with
  | nil => rfl
  | cons f fs ih =>
      simp [SpacDocsDirective.buildRowsSections, sectionTitle_detail_section, ih]

/-- C5: for every packet with N fields the rendered content holds exactly N
summary-table rows and exactly N detail sections, one per field in field
declaration order (row i links the name of field i, section i is titled by
field i). -/
theorem rows_and_sections_count (p : Packet) :
    (summaryRowsOf (SpacDocsDirective._gen_nodes p)).length = p.fields.length
    ∧ (sectionsOf (SpacDocsDirective._gen_nodes p)).length = p.fields.length
    ∧ (summaryRowsOf (SpacDocsDirective._gen_nodes p)).map rowNameRefText
        = p.fields.map (fun f => some f.name)
    ∧ (sectionsOf (SpacDocsDirective._gen_nodes p)).map sectionTitle
        = p.fields.map (fun f => some f.name) := by
  rw [summaryRowsOf_gen, sectionsOf_gen]
  have h1 := buildRows_map_nameRef p.fields 0
  have h2 := buildRows_map_title p.fields 0
  refine ⟨?_, ?_, h1, h2⟩
  · have := congrArg List.length h1
    simpa using this
  · have := congrArg List.length h2
    simpa using this

theorem rowFirstCellText_detail_row (c v : String) :
    rowFirstCellText (SpacDocsDirective._create_detail_section_row c v) = some c := rfl

/-- C8: a field's detail section is titled by the field name and lists
exactly the rows DataType, BitLength, BitOffset, ByteOrder — never Name or
FieldType — plus ArrayShape and ArrayOrder exactly when the field has an
array shape. -/
theorem detail_section_attribute_rows (f : PacketField) (ro : Int) :
    sectionTitle (SpacDocsDirective._create_field_detail_section f ro) = some f.name
    ∧ detailRowNames (SpacDocsDirective._create_field_detail_section f ro)
      = [some "DataType", some "BitLength", some "BitOffset", some "ByteOrder"]
        ++ (if f.array_shape.isSome then [some "ArrayShape", some "ArrayOrder"]
            else []) := by
  refine ⟨sectionTitle_detail_section f ro, ?_⟩
  cases hs : f.array_shape <;> cases hd : f.description <;>
    simp [detailRowNames, sectionBodyRows,
      SpacDocsDirective._create_field_detail_section, hs, hd,
      SpacDocsDirective.ALL_COLUMNS, tableBodyRows, tgroupBodyRows,
      rowFirstCellText_detail_row]

theorem format_bit_offset_none (f : PacketField) (ro : Int)
    (h : f.bit_offset = none) :
    SpacDocsDirective._format_bit_offset f ro = toString ro := by
  simp [SpacDocsDirective._format_bit_offset,
    SpacDocsDirective._calculate_bit_offset, h, pvalStr]

theorem format_bit_offset_explicit (f : PacketField) (ro : Int) (v : PVal)
    (hv : f.bit_offset = some v) (hne : v ≠ .pstr "") :
    SpacDocsDirective._format_bit_offset f ro = pvalStr v := by
  simp [SpacDocsDirective._format_bit_offset,
    SpacDocsDirective._calculate_bit_offset, hv, hne]

theorem buildRows_offsets_unset (fields : List PacketField) (ro : Int)
    (h : ∀ f ∈ fields, f.bit_offset = none) :
    ((SpacDocsDirective.buildRowsSections fields ro).1).map rowBitOffsetCell
      = (List.range fields.length).map fun i =>
          some (toString (ro + ((fields.take i).map fun f => f.bit_length.getD 0).sum)) := by
  induction fields generalizing ro with
  | nil => rfl
  | cons f fs ih =>
      have hf : f.bit_offset = none := h f (List.mem_cons_self _ _)
      have hfs : ∀ g ∈ fs, g.bit_offset = none :=
        fun g hg => h g (List.mem_cons_of_mem _ hg)
      simp only [SpacDocsDirective.buildRowsSections, List.map_cons,
        rowBitOffsetCell_summary_row, format_bit_offset_none f ro hf,
        ih (ro + f.bit_length.getD 0) hfs, List.length_cons,
        List.range_succ_eq_map, List.map_map, Function.comp,
        List.take_succ_cons, List.take_zero, List.map_nil, List.sum_nil,
        List.sum_cons, add_zero]
      simp [add_assoc]

theorem buildRows_offset_explicit (fields : List PacketField) :
    ∀ (ro : Int) (i : Nat) (f : PacketField) (v : PVal),
      fields.get? i = some f → f.bit_offset = some v → v ≠ .pstr "" →
      (((SpacDocsDirective.buildRowsSections fields ro).1).map rowBitOffsetCell).get? i
        = some (some (pvalStr v)) := by
  induction fields with
  | nil => intro ro i f v h; simp at h
  | cons g gs ih =>
      intro ro i f v hi hv hne
      cases i with
      | zero =>
          rw [List.get?_cons_zero] at hi
          injection hi with hgf
          subst hgf
          simp [SpacDocsDirective.buildRowsSections, rowBitOffsetCell_summary_row,
            format_bit_offset_explicit _ ro v hv hne]
      | succ n =>
          simp only [List.get?_cons_succ] at hi
          simpa [SpacDocsDirective.buildRowsSections] using
            ih (ro + g.bit_length.getD 0) n f v hi hv hne

/-- C1: for a packet whose fields all leave the bit offset unset, the
BitOffset cell of the i-th summary row is the sum of the bit lengths of
fields 0..i-1 (unset or absent lengths counting as zero); a field carrying
an explicit bit offset (neither `None` nor `""`) has that offset rendered
verbatim via `str()`. -/
theorem bit_offset_rendering (p : Packet) :
    ((∀ f ∈ p.fields, f.bit_offset = none) →
      summaryBitOffsetCells p = (List.range p.fields.length).map fun i =>
        some (toString (((p.fields.take i).map fun f => f.bit_length.getD 0).sum)))
    ∧ (∀ (i : Nat) (f : PacketField) (v : PVal),
        p.fields.get? i = some f → f.bit_offset = some v → v ≠ PVal.pstr "" →
        (summaryBitOffsetCells p).get? i = some (some (pvalStr v))) := by
  constructor
  · intro h
    rw [summaryBitOffsetCells, summaryRowsOf_gen,
      buildRows_offsets_unset p.fields 0 h]
    simp
  · intro i f v hi hv hne
    rw [summaryBitOffsetCells, summaryRowsOf_gen]
    exact buildRows_offset_explicit p.fields 0 i f v hi hv hne

/-- C1 witness: bit lengths [8, 16, 8] with no explicit offsets render
offsets [0, 8, 24]; a field with explicit offset 42 renders 42. -/
theorem bit_offset_rendering_witness :
    summaryBitOffsetCells ⟨"P", "FixedLength",
      [⟨"a", some "uint", some 8, none, none, none, none, none, none⟩,
       ⟨"b", some "uint", some 16, none, none, none, none, none, none⟩,
       ⟨"c", some "uint", some 8, none, none, none, none, none, none⟩]⟩
      = [some "0", some "8", some "24"]
    ∧ (summaryBitOffsetCells ⟨"Q", "FixedLength",
        [⟨"x", some "uint", some 8, some (.pint 42), none, none, none, none, none⟩]⟩).get? 0
      = some (some "42") := by
  constructor
  · exact ((bit_offset_rendering _).1 (by decide)).trans (by decide)
  · exact ((bit_offset_rendering _).2 0
      ⟨"x", some "uint", some 8, some (.pint 42), none, none, none, none, none⟩
      (.pint 42) (by decide) (by decide) (by decide)).trans (by decide)

/-- C2 counterexample: the claim asserts a build-configuration list of
summary columns to exclude through which excluding "ByteOrder" removes that
column.  `setup` registers exactly one configuration value — the packet
module list — and the summary-table header of a rendered packet (here a
concrete one-field packet) is the fixed list containing "ByteOrder": no
exclusion surface exists, so the claimed behaviour is unreachable. -/
theorem column_exclusion_counterexample :
    setup.config_values.map Prod.fst = ["spacdocs_packet_modules"]
    ∧ (descContentChildren (SpacDocsDirective._gen_nodes
        ⟨"P", "FixedLength",
         [⟨"a", some "uint", some 8, none, none, none, none, none, none⟩]⟩)).map
        tableHeaderTexts
      = [["Name", "DataType", "BitLength", "BitOffset", "ByteOrder"], []] := by
  exact ⟨rfl, by decide⟩

/-- C2 amended: the build configuration exposes only the packet-module
list (no column-exclusion key); the summary table header is fixed to
Name, DataType, BitLength, BitOffset, ByteOrder and every summary row has
exactly these five cells, while detail sections always show all applicable
attributes (see the C8 theorem). -/
theorem summary_columns_fixed :
    setup.config_values.map Prod.fst = ["spacdocs_packet_modules"]
    ∧ (∀ rows, tableHeaderTexts (SpacDocsDirective._create_summary_table_structure rows)
        = ["Name", "DataType", "BitLength", "BitOffset", "ByteOrder"])
    ∧ (∀ (f : PacketField) (ro : Int),
        (rowCellTexts (SpacDocsDirective._create_summary_table_row f ro)).length = 5) := by
  exact ⟨rfl, tableHeaderTexts_summary_structure, fun f ro => rfl⟩

/-- C3 counterexample: on the dotted address "nosuch.pkt" with no module
"nosuch" importable, `run` propagates the import error instead of
returning an empty result (the source wraps imports in try/except in
`generate_packet_stubs` but not in `_load_packet`). -/
theorem unresolvable_address_counterexample :
    SpacDocsDirective.run [] "nosuch.pkt"
      = Except.error (PyError.moduleNotFound "nosuch") := rfl

/-- C3 amended: for a dotted address whose module component imports
successfully, a missing attribute or a non-packet attribute makes `run`
return an empty result with no error; when the module import fails, the
exception propagates out of `run` instead. -/
theorem unresolvable_address_amended (env : Env) (addr m v : String)
    (hsplit : rsplitDot1 addr = some (m, v)) :
    (∀ module, lookupEnv env m = some module →
        isPacketOpt (lookupAttr module v) = false →
        SpacDocsDirective.run env addr = Except.ok [])
    ∧ (lookupEnv env m = none →
        SpacDocsDirective.run env addr = Except.error (.moduleNotFound m)) := by
  constructor
  · intro module hm hnp
    cases hAttr : lookupAttr module v with
    | none =>
        simp [SpacDocsDirective.run, SpacDocsDirective._load_packet,
          hsplit, hm, hAttr]
    | some o =>
        cases o with
        | packet p =>
            rw [hAttr] at hnp
            simp [isPacketOpt] at hnp
        | other =>
            simp [SpacDocsDirective.run, SpacDocsDirective._load_packet,
              hsplit, hm, hAttr]
  · intro hm
    simp [SpacDocsDirective.run, SpacDocsDirective._load_packet, hsplit, hm]

/-- C3 amended witness: a module whose attribute is not a packet yields an
empty result; a missing module yields the import error. -/
theorem unresolvable_address_amended_witness :
    SpacDocsDirective.run [("m", ⟨[("x", PyObj.other)]⟩)] "m.x" = Except.ok []
    ∧ SpacDocsDirective.run [] "nosuch2.pkt"
        = Except.error (PyError.moduleNotFound "nosuch2") := by
  constructor
  · exact (unresolvable_address_amended [("m", ⟨[("x", PyObj.other)]⟩)]
      "m.x" "m" "x" (by decide)).1 ⟨[("x", PyObj.other)]⟩ (by decide) (by decide)
  · exact (unresolvable_address_amended [] "nosuch2.pkt" "nosuch2" "pkt"
      (by decide)).2 (by decide)

theorem splitOnDot_ne_nil (l : List Char) : splitOnDot l ≠ [] := by
  cases l with
  | nil => simp [splitOnDot]
  | cons c cs =>
      by_cases hc : c = Char.ofNat 46
      · simp [splitOnDot, hc]
      · simp only [splitOnDot, hc, if_false]
        cases h : splitOnDot cs <;> simp

theorem splitOnDot_no_dot (l : List Char) (h : Char.ofNat 46 ∉ l) :
    splitOnDot l = [l] := by
  induction l with
  | nil => rfl
  | cons c cs ih =>
      have hc : c ≠ Char.ofNat 46 :=
        fun e => h (e ▸ List.mem_cons_self _ _)
      have hcs : Char.ofNat 46 ∉ cs := fun m => h (List.mem_cons_of_mem _ m)
      simp [splitOnDot, hc, ih hcs]

theorem splitOnDot_with_dot (l : List Char) (h : Char.ofNat 46 ∈ l) :
    2 ≤ (splitOnDot l).length := by
  induction l with
  | nil => simp at h
  | cons c cs ih =>
      by_cases hc : c = Char.ofNat 46
      · have hne := splitOnDot_ne_nil cs
        have hpos : 0 < (splitOnDot cs).length := List.length_pos.mpr hne
        simp only [splitOnDot, hc, if_true, List.length_cons]
        omega
      · have hcs : Char.ofNat 46 ∈ cs := by
          rcases List.mem_cons.mp h with he | hm
          · exact absurd he.symm hc
          · exact hm
        have ih2 := ih hcs
        cases hsp : splitOnDot cs with
        | nil => exact absurd hsp (splitOnDot_ne_nil cs)
        | cons y ys =>
            rw [hsp] at ih2
            simp only [splitOnDot, hc, if_false, hsp]
            simpa using ih2

/-- C7: the stub file name is the dot-to-underscore module path (plus
`.rst`) when the attribute name repeats the last module-path segment, and
otherwise the module path with the attribute name appended, so two packets
of the same module (distinct attribute names) always get distinct stub
names. -/
theorem stub_file_naming (modpath a1 a2 : String) :
    (a1 = lastSegment modpath →
      stubName modpath a1 = underscoreDots modpath ++ ".rst")
    ∧ (a1 ≠ lastSegment modpath →
      stubName modpath a1 = underscoreDots modpath ++ "_" ++ a1 ++ ".rst")
    ∧ (a1 ≠ a2 → stubName modpath a1 ≠ stubName modpath a2) := by
  refine ⟨fun h => by simp [stubName, h], fun h => by simp [stubName, h], ?_⟩
  intro hne heq
  by_cases h1 : a1 = lastSegment modpath <;>
    by_cases h2 : a2 = lastSegment modpath
  · exact hne (h1.trans h2.symm)
  · rw [stubName, if_pos h1, stubName, if_neg h2] at heq
    have hd := congrArg String.data heq
    simp only [String.data_append, List.append_assoc] at hd
    have hd2 := List.append_cancel_left hd
    have hlen := congrArg List.length hd2
    simp only [List.length_append, List.length_cons, List.length_nil] at hlen
    omega
  · rw [stubName, if_neg h1, stubName, if_pos h2] at heq
    have hd := congrArg String.data heq
    simp only [String.data_append, List.append_assoc] at hd
    have hd2 := List.append_cancel_left hd
    have hlen := congrArg List.length hd2
    simp only [List.length_append, List.length_cons, List.length_nil] at hlen
    omega
  · rw [stubName, if_neg h1, stubName, if_neg h2] at heq
    have hd := congrArg String.data heq
    simp only [String.data_append, List.append_assoc] at hd
    have hd2 := List.append_cancel_left hd
    have hd3 := List.append_cancel_left hd2
    have hd4 := List.append_cancel_right hd3
    exact hne (String.ext_iff.mpr hd4)

/-- C7 witness: in module `a.b`, attribute `b` (matching the last segment)
and attribute `c` get the predicted and distinct stub names. -/
theorem stub_file_naming_witness :
    stubName "a.b" "b" = underscoreDots "a.b" ++ ".rst"
    ∧ stubName "a.b" "c" = underscoreDots "a.b" ++ "_" ++ "c" ++ ".rst"
    ∧ stubName "a.b" "b" ≠ stubName "a.b" "c" := by
  refine ⟨(stub_file_naming "a.b" "b" "b").1 (by decide),
    (stub_file_naming "a.b" "c" "c").2.1 (by decide),
    (stub_file_naming "a.b" "b" "c").2.2 (by decide)⟩

/-- C10 counterexample: the module path "a." splits into two segments with
an empty last segment; the claim then demands a child heading equal to that
last segment (the empty string), but the index renders the literal
"packets". -/
theorem index_grouping_counterexample :
    (splitDots "a.").length = 2
    ∧ (splitDots "a.").getLastD "" = ""
    ∧ indexHeadings "a." = ("a", "packets")
    ∧ ("packets" : String) ≠ "" := by decide

/-- C10 amended: a packet whose module path has no dot is grouped under a
parent heading equal to the full path with the literal child heading
"packets"; with at least one dot the parent heading joins all segments but
the last, and the child heading is the last segment when that segment is
nonempty and the literal "packets" otherwise. -/
theorem index_grouping_amended (modpath : String) :
    (Char.ofNat 46 ∉ modpath.data →
      indexHeadings modpath = (modpath, "packets"))
    ∧ (Char.ofNat 46 ∈ modpath.data →
      indexHeadings modpath
        = (String.intercalate "." (splitDots modpath).dropLast,
           childHeader ((splitDots modpath).getLastD ""))) := by
  constructor
  · intro h
    have hsplit : splitDots modpath = [modpath] := by
      rw [splitDots, splitOnDot_no_dot modpath.data h]
      rfl
    simp [indexHeadings, parentChild, hsplit, childHeader]
  · intro h
    have h2 : 2 ≤ (splitDots modpath).length := by
      rw [splitDots, List.length_map]
      exact splitOnDot_with_dot modpath.data h
    rw [indexHeadings, parentChild]
    simp only [if_neg (by omega : ¬(splitDots modpath).length < 2)]

/-- C10 amended witness: a dot-free path groups under itself with child
heading "packets"; `pkg.mod` groups under `pkg` with child heading `mod`. -/
theorem index_grouping_amended_witness :
    indexHeadings "toplevel" = ("toplevel", "packets")
    ∧ indexHeadings "pkg.mod" = ("pkg", "mod") := by
  refine ⟨(index_grouping_amended "toplevel").1 (by decide),
    ((index_grouping_amended "pkg.mod").2 (by decide)).trans (by decide)⟩

theorem writeIfDiff_fst_self (fs : FS) (p : FPath) (c : String) :
    (writeIfDiff fs p c).1 p = some c := by
  rw [writeIfDiff]
  split
  · assumption
  · simp [fsUpdate]

theorem writeIfDiff_fst_ne (fs : FS) (p : FPath) (c : String) (q : FPath)
    (h : q ≠ p) : (writeIfDiff fs p c).1 q = fs q := by
  rw [writeIfDiff]
  split
  · rfl
  · simp [fsUpdate, h]

theorem writeAll_fst_notin (pairs : List (FPath × String)) (fs : FS) (q : FPath)
    (h : ∀ a ∈ pairs, a.1 ≠ q) : (writeAll fs pairs).1 q = fs q := by
  induction pairs generalizing fs with
  | nil => rfl
  | cons pc rest ih =>
      have h1 : pc.1 ≠ q := h pc (List.mem_cons_self _ _)
      have h2 : ∀ a ∈ rest, a.1 ≠ q := fun a ha => h a (List.mem_cons_of_mem _ ha)
      simp only [writeAll]
      rw [ih _ h2, writeIfDiff_fst_ne fs pc.1 pc.2 q (Ne.symm h1)]

theorem coherent_of_cons {x : FPath × String} {l : List (FPath × String)}
    (h : coherentPairs (x :: l)) : coherentPairs l :=
  fun a ha b hb =>
    h a (List.mem_cons_of_mem _ ha) b (List.mem_cons_of_mem _ hb)

theorem writeAll_fst_mem (pairs : List (FPath × String)) (fs : FS)
    (hcoh : coherentPairs pairs) :
    ∀ a ∈ pairs, (writeAll fs pairs).1 a.1 = some a.2 := by
  induction pairs generalizing fs with
  | nil => intro a ha; simp at ha
  | cons pc rest ih =>
      intro a ha
      simp only [writeAll]
      rcases List.mem_cons.mp ha with rfl | hmem
      · by_cases hkey : ∃ b ∈ rest, b.1 = a.1
        · obtain ⟨b, hb, hb1⟩ := hkey
          have hbv := ih (writeIfDiff fs a.1 a.2).1 (coherent_of_cons hcoh) b hb
          rw [hb1] at hbv
          rw [hbv]
          have : b.2 = a.2 :=
            hcoh b (List.mem_cons_of_mem _ hb) a (List.mem_cons_self _ _) hb1
          rw [this]
        · push_neg at hkey
          rw [writeAll_fst_notin rest _ a.1 hkey, writeIfDiff_fst_self]
      · exact ih _ (coherent_of_cons hcoh) a hmem

theorem writeAll_noop (pairs : List (FPath × String)) (fs : FS)
    (h : ∀ a ∈ pairs, fs a.1 = some a.2) : writeAll fs pairs = (fs, []) := by
  induction pairs with
  | nil => rfl
  | cons pc rest ih =>
      have h1 : fs pc.1 = some pc.2 := h pc (List.mem_cons_self _ _)
      have hw : writeIfDiff fs pc.1 pc.2 = (fs, []) := by
        rw [writeIfDiff, if_pos h1]
      simp only [writeAll, hw]
      rw [ih fun a ha => h a (List.mem_cons_of_mem _ ha)]
      rfl

theorem stubPairs_keys (env : Env) (mods : List String) :
    ∀ a ∈ stubPairs env mods, ∃ n, a.1 = FPath.stub n := by
  intro a ha
  simp only [stubPairs, List.mem_map] at ha
  obtain ⟨i, _, rfl⟩ := ha
  exact ⟨i.stub_name, rfl⟩

theorem staticPairs_keys (res : List (String × String)) :
    ∀ a ∈ staticPairs res, ∃ n, a.1 = FPath.static n := by
  intro a ha
  simp only [staticPairs, List.mem_map] at ha
  obtain ⟨r, _, rfl⟩ := ha
  exact ⟨r.1, rfl⟩

theorem fullBuild_writes_nil (env : Env) (mods : List String)
    (res : List (String × String)) (fs : FS)
    (h1 : mods.isEmpty = false → ∀ a ∈ stubPairs env mods, fs a.1 = some a.2)
    (h2 : mods.isEmpty = false →
      fs FPath.toctree = some (toctreeContent (discover env mods)))
    (h3 : ∀ a ∈ staticPairs res, fs a.1 = some a.2) :
    fullBuild env mods res fs = (fs, []) := by
  cases hm : mods.isEmpty with
  | true =>
      simp [fullBuild, generate_packet_stubs, hm, copy_static_css,
        writeAll_noop _ _ h3]
  | false =>
      have hs := writeAll_noop _ fs (h1 hm)
      have ht : writeIfDiff fs FPath.toctree (toctreeContent (discover env mods))
          = (fs, []) := by
        rw [writeIfDiff, if_pos (h2 hm)]
      simp [fullBuild, generate_packet_stubs, hm, copy_static_css, hs, ht,
        writeAll_noop _ _ h3]

/-- C6 amended: provided no two discovered packets derive the same stub
file name with different stub content (and the bundled asset listing names
each file once — a directory-listing invariant), a second build run on
unchanged inputs writes no stub, index or asset file, because each file is
only written when its computed content differs from what is on disk. -/
theorem generation_idempotent (env : Env) (mods : List String)
    (res : List (String × String)) (fs0 : FS)
    (hS : coherentPairs (stubPairs env mods))
    (hR : coherentPairs (staticPairs res)) :
    (fullBuild env mods res (fullBuild env mods res fs0).1).2 = [] := by
  have hfs1copy : (fullBuild env mods res fs0).1
      = (writeAll (generate_packet_stubs env mods fs0).1 (staticPairs res)).1 := rfl
  have h3 : ∀ a ∈ staticPairs res, (fullBuild env mods res fs0).1 a.1 = some a.2 := by
    rw [hfs1copy]
    exact writeAll_fst_mem _ _ hR
  have key := fullBuild_writes_nil env mods res (fullBuild env mods res fs0).1 ?_ ?_ h3
  · rw [key]
  · -- stub files survive the toctree write and the asset copy
    intro hm a ha
    have hgen : (generate_packet_stubs env mods fs0).1
        = (writeIfDiff (writeAll fs0 (stubPairs env mods)).1 FPath.toctree
            (toctreeContent (discover env mods))).1 := by
      simp [generate_packet_stubs, hm]
    obtain ⟨n, hn⟩ := stubPairs_keys env mods a ha
    have hstatic : ∀ b ∈ staticPairs res, b.1 ≠ a.1 := by
      intro b hb
      obtain ⟨m, hmkey⟩ := staticPairs_keys res b hb
      rw [hmkey, hn]
      simp
    rw [hfs1copy, writeAll_fst_notin _ _ _ hstatic, hgen,
      writeIfDiff_fst_ne _ _ _ _ (by rw [hn]; simp)]
    exact writeAll_fst_mem _ _ hS a ha
  · -- the toctree file survives the asset copy
    intro hm
    have hgen : (generate_packet_stubs env mods fs0).1
        = (writeIfDiff (writeAll fs0 (stubPairs env mods)).1 FPath.toctree
            (toctreeContent (discover env mods))).1 := by
      simp [generate_packet_stubs, hm]
    have hstatic : ∀ b ∈ staticPairs res, b.1 ≠ FPath.toctree := by
      intro b hb
      obtain ⟨m, hmkey⟩ := staticPairs_keys res b hb
      rw [hmkey]
      simp
    rw [hfs1copy, writeAll_fst_notin _ _ _ hstatic, hgen, writeIfDiff_fst_self]

/-- C6 counterexample: module "a_b" with packet attribute "a_b" and module
"a.b" with packet attribute "b" both derive the stub file name "a_b.rst"
but with different stub contents; the colliding file is rewritten on every
run, so the second run with unchanged inputs still performs writes. -/
theorem generation_idempotent_counterexample :
    (fullBuild
        [("a_b", ⟨[("a_b", PyObj.packet ⟨"a_b", "FixedLength", []⟩)]⟩),
         ("a.b", ⟨[("b", PyObj.packet ⟨"b", "FixedLength", []⟩)]⟩)]
        ["a_b", "a.b"] []
        (fullBuild
          [("a_b", ⟨[("a_b", PyObj.packet ⟨"a_b", "FixedLength", []⟩)]⟩),
           ("a.b", ⟨[("b", PyObj.packet ⟨"b", "FixedLength", []⟩)]⟩)]
          ["a_b", "a.b"] [] (fun _ => none)).1).2
      ≠ ([] : List FPath) := by decide

/-- C6 amended witness: a single packet in `pkg.mod` plus one CSS asset;
the second build run performs no write. -/
theorem generation_idempotent_witness :
    (fullBuild [("pkg.mod", ⟨[("mod", PyObj.packet ⟨"mod", "FixedLength", []⟩)]⟩)]
        ["pkg.mod"] [("spac-kit.css", "css-bytes")]
        (fullBuild [("pkg.mod", ⟨[("mod", PyObj.packet ⟨"mod", "FixedLength", []⟩)]⟩)]
          ["pkg.mod"] [("spac-kit.css", "css-bytes")] (fun _ => none)).1).2
      = ([] : List FPath) := by
  exact generation_idempotent _ _ _ _ (by decide) (by decide)
